import Mathlib

/-!
Shallow embedding of `src/components/Widgets/Markdown/MarkdownControl/VisualEditor/index.js`
(netlify-cms visual Markdown editor) and proofs about its documented behavior.

The source file is a Slate-based rich-text editor component.  Pure logic —
`processUrl`, the tag tables, the `SoftBreak` and `BackspaceCloseBlock` key
plugins, the key-down dispatcher `handleKeyDown`, the document schema rule
(validate/normalize), and `createSerializer` — is translated here directly.
Slate documents are modelled as lists of top-level blocks whose children are
text nodes (lists of characters); editing transforms are modelled as the list
of transform operations the handlers emit, mirroring the fluent
`state.transform()....apply()` chains of the source.
-/

set_option autoImplicit false

namespace VisualEditor

/-! ## processUrl (source lines 17–25) -/

/-- Prefix test on character lists: `strStarts p s` holds when `s` begins with `p`.
Translation of the anchored regex alternatives in `processUrl`. -/
def strStarts : List Char → List Char → Bool
  | [], _ => true
  | _ :: _, [] => false
  | p :: ps, c :: cs => decide (p = c) && strStarts ps cs

/-- First character exists and is not a slash; used in the scan below. -/
def headNotSlash : List Char → Bool
  | d :: _ => decide (d ≠ '/')
  | [] => false

/-- Backtracking scan for the regex `[^/]+\.[^/]+` continuation: walking over
non-slash characters, succeed on a dot whose successor exists and is not a
slash.  A slash stops the scan. -/
def scanForDot : List Char → Bool
  | [] => false
  | c :: rest =>
    decide (c ≠ '/') && ((decide (c = '.') && headNotSlash rest) || scanForDot rest)

/-- The regex `^[^/]+\.[^/]+` of `processUrl`: at least one non-slash character,
then a dot, then a non-slash character. -/
def matchBareDomain : List Char → Bool
  | [] => false
  | c :: rest => decide (c ≠ '/') && scanForDot rest

/-- Translation of `processUrl` from the source: absolute/protocol-relative inputs are kept,
bare-domain-shaped inputs get `https://`, everything else gets `/`. -/
def processUrl (url : String) : String :=
  if strStarts "http://".data url.data || strStarts "https://".data url.data ||
      strStarts "mailto:".data url.data || strStarts "/".data url.data then
    url
  else if matchBareDomain url.data then
    "https://" ++ url
  else
    "/" ++ url

/-- Claim-side predicate: `url` begins with the string `p`. -/
def BeginsWith (p url : String) : Prop :=
  ∃ t : List Char, url.data = p.data ++ t

/-- Claim-side predicate: `url` begins with one or more non-slash characters,
followed by a dot, followed by a non-slash character (a bare-domain shape). -/
def BareDomainShape (url : String) : Prop :=
  ∃ p d q, url.data = p ++ '.' :: d :: q ∧ p ≠ [] ∧ (∀ c ∈ p, c ≠ '/') ∧ d ≠ '/'

theorem strStarts_iff (p s : List Char) : strStarts p s = true ↔ ∃ t, s = p ++ t := by
  induction p generalizing s with
  | nil => simp [strStarts]
  | cons a ps ih =>
    cases s with
    | nil =>
      simp only [strStarts, List.cons_append]
      constructor
      · intro h; cases h
      · rintro ⟨t, ht⟩; cases ht
    | cons c cs =>
      simp only [strStarts, Bool.and_eq_true, decide_eq_true_eq, ih, List.cons_append]
      constructor
      · rintro ⟨rfl, t, rfl⟩; exact ⟨t, rfl⟩
      · rintro ⟨t, ht⟩
        injection ht with h1 h2
        exact ⟨h1.symm, t, h2⟩

theorem beginsWith_iff (p url : String) :
    BeginsWith p url ↔ strStarts p.data url.data = true := by
  rw [strStarts_iff]
  constructor
  · rintro ⟨t, ht⟩; exact ⟨t, ht⟩
  · rintro ⟨t, ht⟩; exact ⟨t, ht⟩

theorem scanForDot_iff (l : List Char) :
    scanForDot l = true ↔
      ∃ p d q, l = p ++ '.' :: d :: q ∧ (∀ c ∈ p, c ≠ '/') ∧ d ≠ '/' := by
  induction l with
  | nil =>
    simp only [scanForDot]
    constructor
    · intro h; cases h
    · rintro ⟨p, d, q, hl, -, -⟩; cases p <;> cases hl
  | cons c rest ih =>
    simp only [scanForDot, Bool.and_eq_true, Bool.or_eq_true, decide_eq_true_eq, ih]
    constructor
    · rintro ⟨hc, ⟨hd, hh⟩ | ⟨p, d, q, rfl, hp, hdq⟩⟩
      · cases rest with
        | nil => cases hh
        | cons d q =>
          subst hd
          refine ⟨[], d, q, rfl, by simp, ?_⟩
          simpa [headNotSlash] using hh
      · refine ⟨c :: p, d, q, rfl, ?_, hdq⟩
        intro x hx
        rcases List.mem_cons.mp hx with rfl | hx
        · exact hc
        · exact hp x hx
    · rintro ⟨p, d, q, hl, hp, hdq⟩
      cases p with
      | nil =>
        injection hl with h1 h2
        subst h2
        exact ⟨by rw [h1]; decide, Or.inl ⟨h1, by simpa [headNotSlash] using hdq⟩⟩
      | cons a p' =>
        injection hl with h1 h2
        subst h1
        exact ⟨hp c (by simp), Or.inr ⟨p', d, q, h2,
          fun x hx => hp x (List.mem_cons_of_mem c hx), hdq⟩⟩

theorem bareDomainShape_iff (url : String) :
    BareDomainShape url ↔ matchBareDomain url.data = true := by
  constructor
  · rintro ⟨p, d, q, hl, hne, hp, hdq⟩
    cases p with
    | nil => exact absurd rfl hne
    | cons a p' =>
      rw [List.cons_append] at hl
      unfold matchBareDomain
      rw [hl]
      simp only [Bool.and_eq_true, decide_eq_true_eq]
      refine ⟨hp a (by simp), ?_⟩
      exact (scanForDot_iff _).mpr ⟨p', d, q, rfl, fun x hx => hp x (List.mem_cons_of_mem a hx), hdq⟩
  · intro h
    unfold matchBareDomain at h
    cases hu : url.data with
    | nil => rw [hu] at h; cases h
    | cons c rest =>
      rw [hu] at h
      simp only [Bool.and_eq_true, decide_eq_true_eq] at h
      obtain ⟨hc, hscan⟩ := h
      obtain ⟨p, d, q, hrest, hp, hdq⟩ := (scanForDot_iff rest).mp hscan
      refine ⟨c :: p, d, q, by rw [hu, hrest]; rfl, by simp, ?_, hdq⟩
      intro x hx
      rcases List.mem_cons.mp hx with rfl | hx
      · exact hc
      · exact hp x hx

instance (p url : String) : Decidable (BeginsWith p url) :=
  decidable_of_iff _ (beginsWith_iff p url).symm

instance (url : String) : Decidable (BareDomainShape url) :=
  decidable_of_iff _ (bareDomainShape_iff url).symm

/-- Claim C10: `processUrl` returns `url` unchanged when it begins with
`http://`, `https://`, `mailto:`, or `/`; otherwise prepends `https://` when
`url` begins with one or more non-slash characters followed by a dot followed
by a non-slash character (a bare-domain shape); otherwise prepends `/`. -/
theorem claim_C10 (url : String) :
    processUrl url =
      if BeginsWith "http://" url ∨ BeginsWith "https://" url ∨
          BeginsWith "mailto:" url ∨ BeginsWith "/" url then url
      else if BareDomainShape url then "https://" ++ url
      else "/" ++ url := by
  unfold processUrl
  by_cases h1 : BeginsWith "http://" url ∨ BeginsWith "https://" url ∨
      BeginsWith "mailto:" url ∨ BeginsWith "/" url
  · rw [if_pos h1]
    rcases h1 with h | h | h | h <;>
      rw [if_pos (by simp [(beginsWith_iff _ _).mp h])]
  · rw [if_neg h1]
    push_neg at h1
    obtain ⟨n1, n2, n3, n4⟩ := h1
    rw [beginsWith_iff] at n1 n2 n3 n4
    rw [if_neg (by
      simp only [Bool.or_eq_true]
      rintro (((h | h) | h) | h)
      exacts [n1 h, n2 h, n3 h, n4 h])]
    by_cases h2 : BareDomainShape url
    · rw [if_pos h2, if_pos ((bareDomainShape_iff url).mp h2)]
    · rw [if_neg h2, if_neg (fun h => h2 ((bareDomainShape_iff url).mpr h))]

/-! ## Document model

Slate documents are modelled with the structure the source's handlers inspect:
a document is a list of top-level blocks; a block has a `type` string, a void
flag, and a list of child text nodes, each holding a list of characters
(Slate's `characters` of a `Text` node). -/

/-- A Slate text node: its `characters` sequence. -/
structure TextNode where
  characters : List Char
deriving DecidableEq, Repr

/-- A Slate block as inspected by the source's handlers: `type`, `isVoid`, and
its child text nodes. -/
structure Block where
  type : String
  isVoid : Bool
  nodes : List TextNode
deriving DecidableEq, Repr

/-- The `createDefaultBlock` helper of `handleKeyDown` (and the identical block built by
the schema `normalize` rule): an empty paragraph block. -/
def createDefaultBlock : Block :=
  { type := "paragraph", isVoid := false, nodes := [⟨[]⟩] }

/-- Document plus cursor position (index of the block holding the selection);
`none` when the document holds no selection (e.g. it has no blocks). -/
structure DocState where
  doc : List Block
  cursor : Option Nat
deriving DecidableEq, Repr

/-- Structural insert at an explicit index, the document-level effect of
`insertNodeByKey(document.key, index, block)`. -/
def insertAt (l : List Block) (i : Nat) (b : Block) : List Block :=
  l.take i ++ b :: l.drop i

/-! ## Schema rule (source lines 230–246) -/

/-- The schema rule's `validate`: `null` (here `none`) when the document has
blocks, a failure object (here `some ()`) when it has none. -/
def validateDoc (d : List Block) : Option Unit :=
  if d.isEmpty then some () else none

/-- The schema rule's `normalize` transform: insert an empty paragraph block at
position 0 of the document (`insertNodeByKey(document.key, 0, block)`) and
focus; with the document previously empty, the cursor lands in the inserted
block at index 0. -/
def normalizeTransform (s : DocState) : DocState :=
  { doc := insertAt s.doc 0 createDefaultBlock, cursor := some 0 }

/-- One application of the document rule, as Slate applies it on every
`transform().apply()`: run `normalize` exactly when `validate` reports a
failure. -/
def applyDocumentRule (s : DocState) : DocState :=
  match validateDoc s.doc with
  | none => s
  | some _ => normalizeTransform s

/-- Every document that has been through the rule has at least one block. -/
theorem applyDocumentRule_length_pos (s : DocState) :
    0 < (applyDocumentRule s).doc.length := by
  unfold applyDocumentRule validateDoc
  cases hd : s.doc with
  | nil => simp [normalizeTransform, insertAt]
  | cons b rest => simp [hd]

/-- The rule leaves any state with a non-empty document untouched. -/
theorem applyDocumentRule_of_nonempty (s : DocState) (h : 0 < s.doc.length) :
    applyDocumentRule s = s := by
  unfold applyDocumentRule validateDoc
  cases hd : s.doc with
  | nil => rw [hd] at h; exact absurd h (by simp)
  | cons b rest => simp [hd]

/-! ## Initial editor state and reachability (source lines 216–224, 452–458)

The constructor deserializes `remarkToSlate(props.value)` when that produced a
non-empty node list, and the one-empty-paragraph `emptyRaw` document otherwise.
`remarkToSlate` lives outside this file; its output is modelled as an
arbitrary block list.  Every subsequent editor state arises from some
transform's `apply()`, after which Slate runs the schema rule; the `step`
constructor therefore closes reachability under an arbitrary document
transformation followed by the rule. -/

/-- The `emptyRaw` initial document: a single empty paragraph block. -/
def emptyRawDoc : List Block := [createDefaultBlock]

/-- The `initialValue` selection in the constructor: the converted `remark` nodes
when present and non-empty, `emptyRaw` otherwise. -/
def initialDoc (value : Option (List Block)) : List Block :=
  match value with
  | some remark => if remark.length ≠ 0 then remark else emptyRawDoc
  | none => emptyRawDoc

/-- Editor states reachable from the initial state through any sequence of
transforms, each followed by the schema rule. -/
inductive Reachable (value : Option (List Block)) : DocState → Prop
  | init (c : Option Nat) : Reachable value ⟨initialDoc value, c⟩
  | step (s : DocState) (t : DocState → DocState) :
      Reachable value s → Reachable value (applyDocumentRule (t s))

/-- Claim C1: every snapshot reachable from the initial editor state via any
sequence of transforms has at least one block child; the schema validation
rule marks exactly the zero-block documents invalid, and normalization
restores the invariant on any invalid document. -/
theorem claim_C1 (value : Option (List Block)) (s : DocState)
    (h : Reachable value s) :
    0 < s.doc.length ∧
    (∀ d : List Block, validateDoc d ≠ none ↔ d = []) ∧
    (∀ s' : DocState, validateDoc s'.doc ≠ none →
      0 < (applyDocumentRule s').doc.length) := by
  refine ⟨?_, ?_, fun s' _ => applyDocumentRule_length_pos s'⟩
  · induction h with
    | init c =>
      unfold initialDoc
      cases value with
      | none => simp [emptyRawDoc]
      | some remark =>
        by_cases hr : remark.length ≠ 0
        · simpa [hr] using Nat.pos_of_ne_zero hr
        · simp [hr, emptyRawDoc]
    | step s t _ _ => exact applyDocumentRule_length_pos (t s)
  · intro d
    unfold validateDoc
    cases d <;> simp

/-- Witness for C1: the empty-props initial state (one empty paragraph) is
reachable and satisfies the invariant. -/
theorem claim_C1_witness :
    0 < (DocState.mk emptyRawDoc none).doc.length ∧
    (∀ d : List Block, validateDoc d ≠ none ↔ d = []) ∧
    (∀ s' : DocState, validateDoc s'.doc ≠ none →
      0 < (applyDocumentRule s').doc.length) :=
  claim_C1 none ⟨emptyRawDoc, none⟩ (Reachable.init none)

/-- Claim C4: applied to a document with zero blocks, the rule inserts exactly
one empty paragraph at position 0 and places the cursor there; and the rule is
idempotent on every document state. -/
theorem claim_C4 :
    (∀ c : Option Nat,
      applyDocumentRule ⟨[], c⟩ = ⟨[createDefaultBlock], some 0⟩) ∧
    (∀ s : DocState, applyDocumentRule (applyDocumentRule s) = applyDocumentRule s) := by
  constructor
  · intro c
    rfl
  · intro s
    exact applyDocumentRule_of_nonempty _ (applyDocumentRule_length_pos s)

/-! ## Key events and transform operations

The handlers build fluent `state.transform()....apply()` chains; each chain is
modelled as the ordered list of transform operations it invokes, plus the
`save` option passed to `apply` (`apply()` defaults to `save: true`). -/

/-- The `data` object Slate passes to key handlers: normalized key name and
modifier flags. -/
structure KeyData where
  key : String
  isMod : Bool
  isShift : Bool
deriving DecidableEq, Repr

/-- The raw browser event; only `shiftKey` is inspected (by `SoftBreak`). -/
structure KeyEvent where
  shiftKey : Bool
deriving DecidableEq, Repr

/-- Editor state as inspected by the key handlers: the document's key, its
top-level blocks, and the blocks carrying the selection.  `startBlock`,
`anchorBlock` and `focusBlock` are the leaf blocks at the selection edges. -/
structure EditorState where
  docKey : String
  doc : List Block
  anchorBlock : Block
  focusBlock : Block
  startBlock : Block
deriving DecidableEq, Repr

/-- One transform operation of a fluent chain. -/
inductive Op
  | insertNodeByKey (parentKey : String) (index : Nat) (b : Block)
  | collapseToStartOf (b : Block)
  | deleteBackward (n : Nat)
  | unwrapBlock (t : String)
  | insertBlock (t : String)
  | insertText (s : String)
  | toggleMark (m : String)
  | undo
  | redo
  | focus
deriving DecidableEq, Repr

/-- A committed transform: the operations of the chain and the `save` option
given to `apply` (`true` for a plain `apply()`). -/
structure Applied where
  ops : List Op
  save : Bool
deriving DecidableEq, Repr

/-! ## handleKeyDown (source lines 270–331) -/

/-- The `marks` table of `handleKeyDown`: modifier-key letter to mark type.
Note the source maps `u` to `"underlined"`. -/
def marksMap (k : String) : Option String :=
  if k = "b" then some "bold"
  else if k = "i" then some "italic"
  else if k = "u" then some "underlined"
  else if k = "s" then some "strikethrough"
  else if k = "`" then some "code"
  else none

/-- The `MARK_TAGS` table (source lines 83–90): HTML tag to mark type. -/
def MARK_TAGS (tag : String) : Option String :=
  if tag = "strong" then some "bold"
  else if tag = "em" then some "italic"
  else if tag = "u" then some "underline"
  else if tag = "s" then some "strikethrough"
  else if tag = "del" then some "strikethrough"
  else if tag = "code" then some "code"
  else none

/-- The `handleKeyDown` dispatcher: Enter on a selected top-level void block inserts a new
default paragraph (index 0 when the void block is the first child, directly
after it otherwise) and collapses to it; with the platform modifier, `y` is
redo, `z` is undo (redo with shift) — both applied with `save: false` — and
the `marks` table letters toggle the corresponding mark. -/
def handleKeyDown (data : KeyData) (s : EditorState) : Option Applied :=
  let fbIdx := s.doc.findIdx? (fun b => decide (b = s.focusBlock))
  if data.key = "enter" ∧ s.focusBlock.isVoid = true ∧ fbIdx.isSome = true ∧
      s.anchorBlock = s.focusBlock then
    let i := fbIdx.getD 0
    let newBlockIndex := if i = 0 then 0 else i + 1
    some { ops := [Op.insertNodeByKey s.docKey newBlockIndex createDefaultBlock,
                   Op.collapseToStartOf createDefaultBlock],
           save := true }
  else if data.isMod = true then
    if data.key = "y" then
      some { ops := [Op.redo, Op.focus], save := false }
    else if data.key = "z" then
      some { ops := [if data.isShift = true then Op.redo else Op.undo, Op.focus],
             save := false }
    else
      match marksMap data.key with
      | some m => some { ops := [Op.toggleMark m], save := true }
      | none => none
  else none

/-- Claim C2 (amended): Enter on a void focus block that is a direct child of
the document, with anchor block equal to focus block, inserts a new default
paragraph at index 0 when the void block is the first child and at the index
directly after it otherwise, and collapses the selection to the start of the
new paragraph. -/
theorem claim_C2 (d : KeyData) (s : EditorState) (i : Nat)
    (hk : d.key = "enter")
    (hv : s.focusBlock.isVoid = true)
    (hi : s.doc.findIdx? (fun b => decide (b = s.focusBlock)) = some i)
    (ha : s.anchorBlock = s.focusBlock) :
    handleKeyDown d s =
      some { ops := [Op.insertNodeByKey s.docKey (if i = 0 then 0 else i + 1)
                       createDefaultBlock,
                     Op.collapseToStartOf createDefaultBlock],
             save := true } := by
  unfold handleKeyDown
  rw [if_pos ⟨hk, hv, by rw [hi]; rfl, ha⟩, hi]
  rfl

/-- The void shortcode block of the Scenario-5 document. -/
def voidShortcodeBlock : Block :=
  { type := "shortcode", isVoid := true, nodes := [⟨[]⟩] }

/-- The Scenario-5 editor state: document `[paragraph, voidShortcodeBlock]`
with the void block selected (anchor = focus = the void block). -/
def scenario5State : EditorState :=
  { docKey := "doc"
    doc := [createDefaultBlock, voidShortcodeBlock]
    anchorBlock := voidShortcodeBlock
    focusBlock := voidShortcodeBlock
    startBlock := voidShortcodeBlock }

/-- Counterexample to C2 as stated: in the document
`[paragraph, voidShortcodeBlock]` with the void block selected, the void block
is at index 1, so the new paragraph is inserted at index 2 — after the void
block — not before it at index 0. -/
theorem claim_C2_counterexample :
    handleKeyDown ⟨"enter", false, false⟩ scenario5State =
      some { ops := [Op.insertNodeByKey "doc" 2 createDefaultBlock,
                     Op.collapseToStartOf createDefaultBlock],
             save := true } ∧
    handleKeyDown ⟨"enter", false, false⟩ scenario5State ≠
      some { ops := [Op.insertNodeByKey "doc" 0 createDefaultBlock,
                     Op.collapseToStartOf createDefaultBlock],
             save := true } := by
  constructor
  · rfl
  · decide

/-- Witness for C2: a document whose only block is the selected void block;
the new paragraph goes to index 0. -/
theorem claim_C2_witness :
    handleKeyDown ⟨"enter", false, false⟩
        ⟨"doc", [voidShortcodeBlock], voidShortcodeBlock, voidShortcodeBlock,
         voidShortcodeBlock⟩ =
      some { ops := [Op.insertNodeByKey "doc" (if 0 = 0 then 0 else 0 + 1)
                       createDefaultBlock,
                     Op.collapseToStartOf createDefaultBlock],
             save := true } :=
  claim_C2 ⟨"enter", false, false⟩ _ 0 rfl rfl (by decide) rfl

/-- Claim C7: with the platform modifier, `z` undoes (redoes when shift is
held) and `y` redoes, and each of these transforms is applied with
`save: false`. -/
theorem claim_C7 (s : EditorState) (shift : Bool) :
    handleKeyDown ⟨"z", true, shift⟩ s =
      some { ops := [if shift = true then Op.redo else Op.undo, Op.focus],
             save := false } ∧
    handleKeyDown ⟨"y", true, shift⟩ s =
      some { ops := [Op.redo, Op.focus], save := false } := by
  cases shift <;> exact ⟨rfl, rfl⟩

/-- Claim C6, failing on `u`: with the platform modifier, `b`, `i`, `s` and
the backtick toggle the mark types of the source's own `MARK_TAGS` table, but
`u` toggles `"underlined"` while `MARK_TAGS` maps the `u` tag to
`"underline"` — the dispatched mark type does not match the mark tag table. -/
theorem claim_C6_bug (s : EditorState) :
    handleKeyDown ⟨"u", true, false⟩ s =
      some { ops := [Op.toggleMark "underlined"], save := true } ∧
    MARK_TAGS "u" = some "underline" ∧
    ("underlined" : String) ≠ "underline" ∧
    handleKeyDown ⟨"b", true, false⟩ s =
      some { ops := [Op.toggleMark "bold"], save := true } ∧
    handleKeyDown ⟨"i", true, false⟩ s =
      some { ops := [Op.toggleMark "italic"], save := true } ∧
    handleKeyDown ⟨"s", true, false⟩ s =
      some { ops := [Op.toggleMark "strikethrough"], save := true } ∧
    handleKeyDown ⟨"`", true, false⟩ s =
      some { ops := [Op.toggleMark "code"], save := true } :=
  ⟨rfl, rfl, by decide, rfl, rfl, rfl, rfl⟩

/-! ## SoftBreak plugin (source lines 163–184) -/

/-- Membership guard helper for `onlyIn`/`ignoreIn`: JavaScript's
`list && list.includes(type)` and `list && !list.includes(type)` with an
absent option being falsy. -/
def skipIgnore (o : Option (List String)) (t : String) : Bool :=
  match o with
  | some l => decide (t ∈ l)
  | none => false

/-- Guard `onlyIn && !onlyIn.includes(type)`. -/
def skipOnly (o : Option (List String)) (t : String) : Bool :=
  match o with
  | some l => decide (t ∉ l)
  | none => false

/-- Options of the `SoftBreak` plugin factory.  `closeAfter = 0` models the
absent (falsy) option, mirroring JavaScript truthiness. -/
structure SoftBreakOptions where
  shift : Bool := false
  onlyIn : Option (List String) := none
  ignoreIn : Option (List String) := none
  closeAfter : Nat := 0
  unwrapBlocks : Option (List String) := none
  defaultBlock : String := "paragraph"
deriving Repr

/-- Characters of `state.startBlock.nodes.last()`; a Slate block always carries at
least one text child, so the empty fallback is never hit on real states. -/
def lastNodeChars (b : Block) : List Char :=
  match b.nodes.getLast? with
  | some t => t.characters
  | none => []

/-- Immutable's `takeLast n`: the final `n` elements. -/
def takeLastN (n : Nat) (l : List Char) : List Char :=
  l.drop (l.length - n)

/-- The `SoftBreak` plugin's `onKeyDown`: on Enter (optionally requiring
shift), outside `onlyIn`/`ignoreIn`, either close the block — delete the
trailing `closeAfter` newline characters, unwrap the configured block types,
insert the default block — or insert a literal newline character. -/
def SoftBreak (o : SoftBreakOptions) (e : KeyEvent) (data : KeyData)
    (state : EditorState) : Option Applied :=
  if data.key ≠ "enter" then none
  else if o.shift = true ∧ e.shiftKey = false then none
  else if skipOnly o.onlyIn state.startBlock.type = true then none
  else if skipIgnore o.ignoreIn state.startBlock.type = true then none
  else
    let shouldClose :=
      (takeLastN o.closeAfter (lastNodeChars state.startBlock)).all
        (fun c => decide (c = '\n'))
    if o.closeAfter ≠ 0 ∧ shouldClose = true then
      some { ops := Op.deleteBackward o.closeAfter ::
               ((match o.unwrapBlocks with
                 | some l => l.map Op.unwrapBlock
                 | none => []) ++ [Op.insertBlock o.defaultBlock]),
             save := true }
    else
      some { ops := [Op.insertText "\n"], save := true }

/-- The `SoftBreak` configuration installed in `slatePlugins` (source line
207): an ignore list and `closeAfter: 1`; no `unwrapBlocks`. -/
def softBreakConfig : SoftBreakOptions :=
  { ignoreIn := some ["paragraph", "list-item", "numbered-list", "bulleted-list",
                      "table", "table-row", "table-cell"],
    closeAfter := 1 }

/-- Whether an op list contains any `unwrapBlock` operation. -/
def containsUnwrap (ops : List Op) : Bool :=
  ops.any fun op =>
    match op with
    | Op.unwrapBlock _ => true
    | _ => false

/-- Claim C3 (amended), for any `SoftBreak` options without a shift
requirement or `onlyIn` restriction and with a truthy `closeAfter`: a block
type in the ignore-set is left alone; otherwise, when the trailing
`closeAfter` characters of the block's last text node are all newlines, the
transform deletes them backward, unwraps exactly the configured `unwrapBlocks`
types (none when the option is absent), and inserts the default block; and
otherwise the transform inserts a literal newline character. -/
theorem claim_C3 (o : SoftBreakOptions) (e : KeyEvent) (d : KeyData)
    (s : EditorState)
    (hk : d.key = "enter") (hsh : o.shift = false) (hon : o.onlyIn = none)
    (hca : o.closeAfter ≠ 0) :
    (skipIgnore o.ignoreIn s.startBlock.type = true →
      SoftBreak o e d s = none) ∧
    (skipIgnore o.ignoreIn s.startBlock.type = false →
      (takeLastN o.closeAfter (lastNodeChars s.startBlock)).all
          (fun c => decide (c = '\n')) = true →
      SoftBreak o e d s =
        some { ops := Op.deleteBackward o.closeAfter ::
                 ((match o.unwrapBlocks with
                   | some l => l.map Op.unwrapBlock
                   | none => []) ++ [Op.insertBlock o.defaultBlock]),
               save := true }) ∧
    (skipIgnore o.ignoreIn s.startBlock.type = false →
      (takeLastN o.closeAfter (lastNodeChars s.startBlock)).all
          (fun c => decide (c = '\n')) = false →
      SoftBreak o e d s = some { ops := [Op.insertText "\n"], save := true }) := by
  unfold SoftBreak
  rw [if_neg (by simp [hk]), if_neg (by simp [hsh]), if_neg (by simp [skipOnly, hon])]
  refine ⟨fun hig => by rw [if_pos hig], fun hig hcl => ?_, fun hig hcl => ?_⟩
  · rw [if_neg (by simp [hig]), if_pos ⟨hca, hcl⟩]
  · rw [if_neg (by simp [hig]), if_neg (by simp [hcl])]

/-- The Scenario-6 code block: last text node ends in a newline. -/
def scenario6Block : Block :=
  { type := "code", isVoid := false, nodes := [⟨['x', '\n']⟩] }

/-- The Scenario-6 editor state. -/
def scenario6State : EditorState :=
  { docKey := "doc"
    doc := [scenario6Block]
    anchorBlock := scenario6Block
    focusBlock := scenario6Block
    startBlock := scenario6Block }

/-- Counterexample to C3 as stated: with the installed configuration
(`closeAfter: 1`, no `unwrapBlocks`) Enter in a code block ending in a newline
emits only a backward deletion and a default-block insertion — the transform
contains no unwrap operation, so the code block is not unwrapped. -/
theorem claim_C3_counterexample :
    SoftBreak softBreakConfig ⟨false⟩ ⟨"enter", false, false⟩ scenario6State =
      some { ops := [Op.deleteBackward 1, Op.insertBlock "paragraph"],
             save := true } ∧
    (SoftBreak softBreakConfig ⟨false⟩ ⟨"enter", false, false⟩
        scenario6State).map (fun a => containsUnwrap a.ops) = some false := by
  exact ⟨rfl, rfl⟩

/-- Quote block ending in a newline, used for the C3 witness. -/
def c3QuoteBlock : Block :=
  { type := "quote", isVoid := false, nodes := [⟨['\n']⟩] }

/-- Witness for C3: Enter in a quote block (not ignored) whose text ends in a
newline closes the block: delete the newline, no unwraps, insert a paragraph. -/
theorem claim_C3_witness :
    SoftBreak softBreakConfig ⟨false⟩ ⟨"enter", false, false⟩
        ⟨"doc", [c3QuoteBlock], c3QuoteBlock, c3QuoteBlock, c3QuoteBlock⟩ =
      some { ops := Op.deleteBackward softBreakConfig.closeAfter ::
               ((match softBreakConfig.unwrapBlocks with
                 | some l => l.map Op.unwrapBlock
                 | none => []) ++ [Op.insertBlock softBreakConfig.defaultBlock]),
             save := true } :=
  (claim_C3 softBreakConfig ⟨false⟩ ⟨"enter", false, false⟩
      ⟨"doc", [c3QuoteBlock], c3QuoteBlock, c3QuoteBlock, c3QuoteBlock⟩
      rfl rfl rfl (by decide)).2.1 (by decide) (by decide)

/-! ## BackspaceCloseBlock plugin (source lines 186–204) -/

/-- Options of the `BackspaceCloseBlock` plugin factory. -/
structure BackspaceOptions where
  defaultBlock : String := "paragraph"
  ignoreIn : Option (List String) := none
  onlyIn : Option (List String) := none
deriving Repr

/-- Characters of `startBlock.getFirstText()`; the empty list also models the
`!characters` case of a block with no text child. -/
def firstTextChars (b : Block) : List Char :=
  match b.nodes.head? with
  | some t => t.characters
  | none => []

/-- The `BackspaceCloseBlock` plugin's `onKeyDown`: on Backspace, outside
`onlyIn`/`ignoreIn`, when the block's first text node has no characters,
insert the default block and focus; otherwise fall through to the default
deletion. -/
def BackspaceCloseBlock (o : BackspaceOptions) (data : KeyData)
    (state : EditorState) : Option Applied :=
  if data.key ≠ "backspace" then none
  else if skipOnly o.onlyIn state.startBlock.type = true then none
  else if skipIgnore o.ignoreIn state.startBlock.type = true then none
  else if (firstTextChars state.startBlock).isEmpty = true then
    some { ops := [Op.insertBlock o.defaultBlock, Op.focus], save := true }
  else none

/-- The `BackspaceCloseBlock` configuration installed in `slatePlugins`
(source line 208). -/
def backspaceConfig : BackspaceOptions :=
  { ignoreIn := some ["paragraph", "list-item", "bulleted-list", "numbered-list",
                      "table", "table-row", "table-cell"] }

/-- Modelled from the spec: Slate's `insertBlock` transform (slate is an
external library whose code is not part of this repository).  Per the spec's
rule 6 — "If the block's text is empty, replace/insert a default block and
move focus there" — `insertBlock t` issued while the cursor sits in an empty
leaf block replaces that block with an empty block of type `t`, and `focus`
keeps the cursor in it.  Other operations are not emitted by this handler. -/
def applyEmptyBlockOps (ops : List Op) (st : DocState) : DocState :=
  ops.foldl
    (fun acc op =>
      match op with
      | Op.insertBlock t =>
        { acc with
          doc := acc.doc.set (acc.cursor.getD 0)
                   { type := t, isVoid := false, nodes := [⟨[]⟩] } }
      | _ => acc)
    st

/-- Claim C5: Backspace in a block whose type is in the configured ignore-set
does nothing; in a block whose first text node is empty, it emits the
insert-default-block-and-focus transform, whose effect replaces that block by
an empty default paragraph carrying the focus; in a non-empty block it does
nothing and default deletion applies. -/
theorem claim_C5 (d : KeyData) (s : EditorState) (doc : List Block) (i : Nat)
    (hk : d.key = "backspace") :
    (skipIgnore backspaceConfig.ignoreIn s.startBlock.type = true →
      BackspaceCloseBlock backspaceConfig d s = none) ∧
    (skipIgnore backspaceConfig.ignoreIn s.startBlock.type = false →
      firstTextChars s.startBlock = [] →
      BackspaceCloseBlock backspaceConfig d s =
        some { ops := [Op.insertBlock "paragraph", Op.focus], save := true } ∧
      applyEmptyBlockOps [Op.insertBlock "paragraph", Op.focus] ⟨doc, some i⟩ =
        ⟨doc.set i createDefaultBlock, some i⟩) ∧
    (skipIgnore backspaceConfig.ignoreIn s.startBlock.type = false →
      firstTextChars s.startBlock ≠ [] →
      BackspaceCloseBlock backspaceConfig d s = none) := by
  unfold BackspaceCloseBlock
  rw [if_neg (by simp [hk]), if_neg (by simp [skipOnly, backspaceConfig])]
  refine ⟨fun hig => by rw [if_pos hig], fun hig hemp => ⟨?_, rfl⟩, fun hig hne => ?_⟩
  · rw [if_neg (by simp [hig]), if_pos (by simp [hemp])]
    rfl
  · rw [if_neg (by simp [hig]), if_neg (by simp [List.isEmpty_iff, hne])]

/-- The Scenario-4 empty quote block. -/
def emptyQuoteBlock : Block :=
  { type := "quote", isVoid := false, nodes := [⟨[]⟩] }

/-- Witness for C5 (Scenario 4): Backspace in an empty quote block emits the
insert-and-focus transform, and its effect on a one-quote-block document is a
document holding a single empty paragraph with the cursor in it. -/
theorem claim_C5_witness :
    BackspaceCloseBlock backspaceConfig ⟨"backspace", false, false⟩
        ⟨"doc", [emptyQuoteBlock], emptyQuoteBlock, emptyQuoteBlock,
         emptyQuoteBlock⟩ =
      some { ops := [Op.insertBlock "paragraph", Op.focus], save := true } ∧
    applyEmptyBlockOps [Op.insertBlock "paragraph", Op.focus]
        ⟨[emptyQuoteBlock], some 0⟩ =
      ⟨[emptyQuoteBlock].set 0 createDefaultBlock, some 0⟩ :=
  (claim_C5 ⟨"backspace", false, false⟩
      ⟨"doc", [emptyQuoteBlock], emptyQuoteBlock, emptyQuoteBlock,
       emptyQuoteBlock⟩
      [emptyQuoteBlock] 0 rfl).2.1 (by decide) rfl

/-! ## toggleMark (spec §4.3; invoked at source lines 324–329 and 333–338) -/

/-- A selected text range together with its set of marks. -/
structure TRange where
  text : String
  marks : Finset String
deriving DecidableEq

/-- Modelled from the spec: the Transform Engine's `toggleMark` (implemented by
the external Slate library, whose code is not part of this repository): "if
any selected text lacks the mark, add it to all selected text; if all selected
text already has it, remove it from all".  The selection is modelled as the
list of text ranges it covers. -/
def toggleMark (m : String) (sel : List TRange) : List TRange :=
  if sel.all (fun r => decide (m ∈ r.marks)) then
    sel.map (fun r => { r with marks := r.marks.erase m })
  else
    sel.map (fun r => { r with marks := insert m r.marks })

/-- Mapping a function that fixes every member of a list is the identity. -/
theorem map_self_of_mem {α : Type} (f : α → α) (l : List α)
    (h : ∀ x ∈ l, f x = x) : l.map f = l := by
  induction l with
  | nil => rfl
  | cons a t ih =>
    simp only [List.map_cons, h a (by simp),
      ih (fun x hx => h x (List.mem_cons_of_mem a hx))]

/-- Claim C8 (amended): when the selected ranges uniformly carry the mark or
uniformly lack it, toggling the mark twice restores the original per-range
mark state. -/
theorem claim_C8 (m : String) (sel : List TRange)
    (h : (∀ r ∈ sel, m ∈ r.marks) ∨ (∀ r ∈ sel, m ∉ r.marks)) :
    toggleMark m (toggleMark m sel) = sel := by
  rcases h with h | h
  · cases sel with
    | nil => rfl
    | cons r0 rest =>
      have hall : (r0 :: rest).all (fun r => decide (m ∈ r.marks)) = true := by
        simp only [List.all_eq_true, decide_eq_true_eq]
        exact h
      unfold toggleMark
      rw [if_pos hall]
      rw [if_neg (fun hcon => by
        simp only [List.all_eq_true, List.mem_map, decide_eq_true_eq] at hcon
        exact Finset.not_mem_erase m r0.marks (hcon _ ⟨r0, by simp, rfl⟩))]
      rw [List.map_map]
      have : ∀ r ∈ (r0 :: rest),
          ((fun r => { r with marks := insert m r.marks }) ∘
           (fun r => { r with marks := r.marks.erase m })) r = r := by
        intro r hr
        simp only [Function.comp]
        have : insert m (r.marks.erase m) = r.marks := Finset.insert_erase (h r hr)
        cases r
        simp_all
      exact map_self_of_mem _ _ this
  · cases sel with
    | nil => rfl
    | cons r0 rest =>
      unfold toggleMark
      by_cases hall : (r0 :: rest).all (fun r => decide (m ∈ r.marks)) = true
      · exfalso
        simp only [List.all_eq_true, decide_eq_true_eq] at hall
        exact h r0 (by simp) (hall r0 (by simp))
      · rw [if_neg hall]
        have hall2 : ((r0 :: rest).map
            (fun r => { r with marks := insert m r.marks })).all
              (fun r => decide (m ∈ r.marks)) = true := by
          simp only [List.all_eq_true, List.mem_map]
          rintro x ⟨r, hr, rfl⟩
          simp
        rw [if_pos hall2, List.map_map]
        have : ∀ r ∈ (r0 :: rest),
            ((fun r => { r with marks := r.marks.erase m }) ∘
             (fun r => { r with marks := insert m r.marks })) r = r := by
          intro r hr
          simp only [Function.comp]
          have : (insert m r.marks).erase m = r.marks := Finset.erase_insert (h r hr)
          cases r
          simp_all
        exact map_self_of_mem _ _ this

/-- A mixed selection: one bold range and one unmarked range. -/
def mixedSelection : List TRange :=
  [⟨"a", {"bold"}⟩, ⟨"b", ∅⟩]

/-- Counterexample to C8 as stated: on a mixed selection — one range carrying
`bold`, one lacking it — toggling `bold` twice does not restore the original
per-range mark state (both ranges end up unmarked). -/
theorem claim_C8_counterexample :
    toggleMark "bold" (toggleMark "bold" mixedSelection) ≠ mixedSelection := by
  decide

/-- Witness for C8: a uniform selection (every range carries `bold`) returns
to its original mark state after two toggles. -/
theorem claim_C8_witness :
    toggleMark "bold" (toggleMark "bold" [⟨"a", {"bold"}⟩]) = [⟨"a", {"bold"}⟩] :=
  claim_C8 "bold" [⟨"a", {"bold"}⟩] (Or.inl (by decide))

/-! ## createSerializer (source lines 57–66) -/

/-- A plugin node's attribute mapping (`node.attrs`). -/
def Attrs : Type := List (String × String)

/-- A registered editor plugin as used by `createSerializer`: its `id` and its
`toBlock` serializer. -/
structure EditorPlugin where
  id : String
  toBlock : Attrs → String

/-- The serializer entry `createSerializer` installs for a plugin node kind:
`state.write(toBlock(node.attrs) + "\n\n")` — the rendered string followed by
a blank line. -/
def serializePluginNode (p : EditorPlugin) (attrs : Attrs) : String :=
  p.toBlock attrs ++ "\n\n"

/-- Translation of `createSerializer`: starting from the base Markdown serializer's node
table, install one entry per plugin under the node kind `plugin_<id>`. -/
def createSerializer (base : String → Option (Attrs → String))
    (plugins : List EditorPlugin) : String → Option (Attrs → String) :=
  plugins.foldl
    (fun ser p kind =>
      if kind = "plugin_" ++ p.id then some (serializePluginNode p) else ser kind)
    base

/-- Node kinds other than a prefixed plugin id are untouched by the fold. -/
theorem createSerializer_untouched (base : String → Option (Attrs → String))
    (plugins : List EditorPlugin) (kind : String)
    (h : ∀ q ∈ plugins, "plugin_" ++ q.id ≠ kind) :
    createSerializer base plugins kind = base kind := by
  induction plugins generalizing base with
  | nil => rfl
  | cons q rest ih =>
    unfold createSerializer
    rw [List.foldl_cons]
    have step : (if kind = "plugin_" ++ q.id then some (serializePluginNode q)
        else base kind) = base kind :=
      if_neg (fun hc => h q (by simp) hc.symm)
    calc createSerializer (fun kind' =>
            if kind' = "plugin_" ++ q.id then some (serializePluginNode q)
            else base kind') rest kind
        = (fun kind' => if kind' = "plugin_" ++ q.id
            then some (serializePluginNode q) else base kind') kind :=
          ih _ (fun x hx => h x (List.mem_cons_of_mem q hx))
      _ = base kind := step

/-- Prefixing with `plugin_` is injective on ids. -/
theorem pluginKind_inj (a b : String) (h : "plugin_" ++ a = "plugin_" ++ b) :
    a = b := by
  have hd : ("plugin_" ++ a).data = ("plugin_" ++ b).data := by rw [h]
  rw [String.data_append, String.data_append] at hd
  have h2 := List.append_cancel_left hd
  cases a with
  | mk la =>
    cases b with
    | mk lb =>
      have h3 : la = lb := by simpa using h2
      rw [h3]

/-- Claim C9: for every registered plugin (plugin ids being distinct), the
serializer produced by `createSerializer` maps the node kind `plugin_<id>` to
the function writing `toBlock(node.attrs)` followed by two newline
characters — an opaque single-string rendering. -/
theorem claim_C9 (base : String → Option (Attrs → String))
    (plugins : List EditorPlugin) (p : EditorPlugin)
    (hp : p ∈ plugins) (hnodup : (plugins.map EditorPlugin.id).Nodup) :
    createSerializer base plugins ("plugin_" ++ p.id) =
      some (serializePluginNode p) := by
  induction plugins generalizing base with
  | nil => cases hp
  | cons q rest ih =>
    unfold createSerializer
    rw [List.foldl_cons]
    rcases List.mem_cons.mp hp with rfl | hmem
    · have hnotin : ∀ x ∈ rest, "plugin_" ++ x.id ≠ "plugin_" ++ p.id := by
        intro x hx hc
        have hxid : x.id = p.id := pluginKind_inj _ _ hc
        have : p.id ∈ rest.map EditorPlugin.id := hxid ▸ List.mem_map_of_mem _ hx
        exact (List.nodup_cons.mp hnodup).1 this
      rw [show (List.foldl _ _ rest : String → Option (Attrs → String)) =
            createSerializer (fun kind =>
              if kind = "plugin_" ++ p.id then some (serializePluginNode p)
              else base kind) rest from rfl,
        createSerializer_untouched _ rest _ hnotin]
      simp
    · exact ih _ hmem (List.nodup_cons.mp hnodup).2

/-- A concrete plugin for the C9 witness. -/
def witnessPlugin : EditorPlugin :=
  { id := "youtube", toBlock := fun _ => "{{< youtube >}}" }

/-- Witness for C9: with a single registered plugin, the serializer maps its
`plugin_youtube` kind to its opaque rendering function. -/
theorem claim_C9_witness :
    createSerializer (fun _ => none) [witnessPlugin]
        ("plugin_" ++ witnessPlugin.id) = some (serializePluginNode witnessPlugin) :=
  claim_C9 (fun _ => none) [witnessPlugin] witnessPlugin (by simp)
    (by simp)

end VisualEditor
